import Mathlib

/-!
Verification of the hawk.vite.config repository (a Vite plugin that uploads
sourcemaps to the Hawk collector and injects a release identifier into the
bundle's global scope).

The development shallowly embeds the plugin's source (`src/index.js` in its
richer variant: the one with the virtual-module injection) into Lean:

* JSON values produced by `JSON.parse` are modelled by the inductive `Json`;
  JavaScript values obtained from property access (which may be `undefined`)
  by `JsVal`; truthiness, nullish coalescing and string coercion follow the
  JavaScript semantics for those values (numbers are modelled as integers;
  no claim depends on floating point).
* External runtime primitives (`Buffer.from(_, 'base64').toString('utf-8')`,
  `JSON.parse`, `new Date()` stringification) are modelled as an environment
  `JsEnv` of oracles: the plugin code only composes them, and every claim is
  conditional on their outcome.
* The filesystem is an association list from paths to contents; `fetch` is
  an oracle from the uploaded file's path to the outcome of the request.
  An async function that rejects is modelled by a `thrown` field carrying
  the error message; log output is the list of strings written to the
  console.
-/

set_option linter.unusedVariables false

namespace Hawk

/-- JSON values, as returned by a successful `JSON.parse`. -/
inductive Json where
  | null
  | bool (b : Bool)
  | num (n : Int)
  | str (s : String)
  | arr (elems : List Json)
  | obj (fields : List (String × Json))

/-- A JavaScript value obtained from a property access: either `undefined`
or a JSON value. -/
inductive JsVal where
  | undefined
  | val (j : Json)

/-- JavaScript truthiness of a `JsVal` (`NaN` is not representable in the
integer model; no claim depends on it). -/
def jsTruthy : JsVal → Bool
  | .undefined => false
  | .val .null => false
  | .val (.bool b) => b
  | .val (.num n) => n != 0
  | .val (.str s) => s != ""
  | .val (.arr _) => true
  | .val (.obj _) => true

/-- JavaScript nullish test (`undefined` or `null`), as used by `??`. -/
def jsNullish : JsVal → Bool
  | .undefined => true
  | .val .null => true
  | _ => false

/-- The JavaScript nullish-coalescing operator `a ?? b`. -/
def nullishCoalesce (a b : JsVal) : JsVal :=
  if jsNullish a then b else a

/-- Property access `j[key]` on a parsed JSON value: on `null` it throws a
`TypeError` (modelled by `.error` with the runtime's message), on objects it
looks the key up, on anything else it yields `undefined`. -/
def jsGetProp (j : Json) (key : String) : Except String JsVal :=
  match j with
  | .null => .error ("Cannot read properties of null (reading \x27" ++ key ++ "\x27)")
  | .obj fields =>
      match fields.find? (fun f => f.1 == key) with
      | some f => .ok (.val f.2)
      | none => .ok .undefined
  | _ => .ok .undefined

/-- Property access that maps the (unreachable in its uses below) `TypeError`
case to `undefined`; used where the receiver is already known non-null. -/
def jsGetPropD (j : Json) (key : String) : JsVal :=
  match jsGetProp j key with
  | .ok v => v
  | .error _ => .undefined

mutual

/-- JavaScript `String(_)` coercion of a JSON value. -/
def jsonToString : Json → String
  | .null => "null"
  | .bool b => cond b "true" "false"
  | .num n => toString n
  | .str s => s
  | .obj _ => "[object Object]"
  | .arr elems => jsonJoin elems

/-- `Array.prototype.join(',')`, as used by `String(_)` on arrays. -/
def jsonJoin : List Json → String
  | [] => ""
  | [j] => jsonElemToString j
  | j :: rest => jsonElemToString j ++ "," ++ jsonJoin rest

/-- Element conversion inside a join: `null` becomes the empty string. -/
def jsonElemToString : Json → String
  | .null => ""
  | j => jsonToString j

end

/-- JavaScript `String(_)` coercion of a possibly-`undefined` value, as
performed by template-literal interpolation. -/
def jsValToString : JsVal → String
  | .undefined => "undefined"
  | .val j => jsonToString j

/-- String coercion of the value (a `JsVal`, `undefined` on failure) that a
JavaScript variable holds, as used in a template literal. -/
def jsOptToString : Option Json → String
  | none => "undefined"
  | some j => jsonToString j

/-- JavaScript `String.prototype.endsWith`, modelled over the character
list (Lean's built-in `String.endsWith` is byte-position based and does not
evaluate inside the kernel). -/
def jsEndsWith (s suffix : String) : Bool :=
  suffix.data.isSuffixOf s.data

/-- Whether `needle` occurs as a contiguous subsequence of the character
list `haystack`. -/
def containsSeq (needle : List Char) : List Char → Bool
  | [] => needle.isPrefixOf []
  | c :: rest => needle.isPrefixOf (c :: rest) || containsSeq needle rest

/-- JavaScript `String.prototype.includes`. -/
def jsIncludes (s pat : String) : Bool :=
  containsSeq pat.data s.data

/-- Number of character positions of `s` at which `pat` starts. -/
def occurrencesFrom (pat : List Char) : List Char → Nat
  | [] => 0
  | c :: rest => (cond (pat.isPrefixOf (c :: rest)) 1 0) + occurrencesFrom pat rest

/-- Number of occurrences of a (non-self-overlapping) pattern in a string. -/
def countOccurrences (s pat : String) : Nat :=
  occurrencesFrom pat.data s.data

/-- Oracles for the external runtime primitives the plugin composes:
`base64ToUtf8` models `Buffer.from(tok, 'base64').toString('utf-8')` (total
in Node: invalid characters are skipped and invalid UTF-8 is replaced);
`jsonParse` models `JSON.parse` (`none` when it throws); `now` models the
string coercion of `new Date()`. -/
structure JsEnv where
  base64ToUtf8 : String → String
  jsonParse : String → Option Json
  now : String

/-! ### Console utilities (`src/utils/log.js`) -/

/-- Wraps a message in the ANSI color escape, exactly as `wrapInColor`. -/
def wrapInColor (msg : String) (color : Nat) : String :=
  "\x1b[" ++ toString color ++ "m" ++ msg ++ "\x1b[0m"

namespace consoleColors

/-- Cyan foreground color code. -/
def fgCyan : Nat := 36

/-- Red foreground color code. -/
def fgRed : Nat := 31

/-- Green foreground color code. -/
def fgGreen : Nat := 32

end consoleColors

/-- The string `log(message, color, skipLineBreak)` writes to the console. -/
def logLine (message : String) (color : Nat) (skipLineBreak : Bool) : String :=
  wrapInColor ("🦅 Hawk | " ++ message ++ (if !skipLineBreak then "\n" else "")) color

/-! ### Integration-id decoder (`getIntegrationId`) -/

/-- The message `getIntegrationId` prints with `console.error` on failure. -/
def invalidTokenMessage : String := "Invalid Integration token"

/-- `getIntegrationId(integrationToken)`: base64-decode the token, parse it
as JSON, read the `integrationId` field; any failure (parse error, property
access on `null`, falsy or empty field) is caught, logged, and yields
`undefined` (here `none`). Returns the result together with the list of
messages printed with `console.error`. The function is total: no failure
escapes it. -/
def getIntegrationId (env : JsEnv) (integrationToken : String) : Option Json × List String :=
  let decodedIntegrationTokenAsString := env.base64ToUtf8 integrationToken
  match env.jsonParse decodedIntegrationTokenAsString with
  | none => (none, [invalidTokenMessage])
  | some decodedIntegrationToken =>
      match jsGetProp decodedIntegrationToken "integrationId" with
      | .error _ => (none, [invalidTokenMessage])
      | .ok integrationId =>
          if !(jsTruthy integrationId)
              || (match integrationId with
                  | .val (.str s) => s == ""
                  | _ => false) then
            (none, [invalidTokenMessage])
          else
            match integrationId with
            | .undefined => (none, [invalidTokenMessage])
            | .val j => (some j, [])

/-! ### Plugin setup (`hawkVitePlugin`) -/

/-- The configuration captured by the plugin closure after setup. -/
structure PluginConfig where
  name : String
  token : String
  release : String
  removeSourceMaps : Bool
  collectorEndpoint : String

/-- JavaScript falsiness of an optional string option (absent or `''`). -/
def strOptFalsy : Option String → Bool
  | none => true
  | some s => s == ""

/-- `hawkVitePlugin(\x7btoken, release, removeSourceMaps = true,
collectorEndpoint\x7d)`: with a falsy token it logs
`Invalid integration token specified.` and returns `undefined` (no plugin);
otherwise, when no collector endpoint is given, it derives one from the
decoded integration id by template interpolation (an undecodable token
interpolates as the string `undefined`), defaults the release to the current
date, and returns the plugin closure's configuration. The second component
collects the `console.error` output of setup. -/
def hawkVitePlugin (env : JsEnv) (token : String) (release : Option String)
    (removeSourceMaps : Bool := true) (collectorEndpoint : Option String := none) :
    Option PluginConfig × List String :=
  if token == "" then
    (none, ["Invalid integration token specified."])
  else
    let (endpoint, logs) :=
      if strOptFalsy collectorEndpoint then
        let (integrationId, l) := getIntegrationId env token
        ("https://" ++ jsOptToString integrationId ++ ".k1.hawk.so/release", l)
      else
        (collectorEndpoint.getD "", [])
    let releaseStr := if strOptFalsy release then env.now else release.getD ""
    (some ⟨"hawk-vite-plugin", token, releaseStr, removeSourceMaps, endpoint⟩, logs)

/-! ### Sourcemap discovery (`getSourceMapsFileNames`) -/

/-- One entry of the bundle info passed to `writeBundle` (`Object.values`
order is the listing's natural iteration order, so the listing is modelled
as the list of its values). -/
structure BundleItem where
  type : String
  fileName : String

/-- `getSourceMapsFileNames(bundlesInfo)`: the file names of the entries
whose `type` is `'asset'` and whose `fileName` ends in `'.map'`, in listing
order. Pure and total. -/
def getSourceMapsFileNames (bundlesInfo : List BundleItem) : List String :=
  (bundlesInfo.filter
      (fun item => item.type == "asset" && jsEndsWith item.fileName ".map")).map
    (fun item => item.fileName)

/-! ### Filesystem and network model for the upload pipeline -/

/-- The local filesystem: an association list from paths to file contents. -/
abbrev FsState := List (String × String)

/-- `fs.readFile`-style lookup of a path. -/
def lookupFs (fs : FsState) (p : String) : Option String :=
  (fs.find? (fun e => e.1 == p)).map (fun e => e.2)

/-- `fs.unlink`: the filesystem with every entry at path `p` removed. -/
def removeFs (fs : FsState) (p : String) : FsState :=
  fs.filter (fun e => !(e.1 == p))

/-- Outcome of the `fetch` call for one uploaded file, as an oracle keyed by
the file's path (the request body carries that file's contents and name, so
the path identifies the request): the fetch promise rejects
(`networkError`), `response.json()` rejects (`invalidJson`), or a parsed
JSON body is returned (`response`). -/
inductive FetchOutcome where
  | networkError (msg : String)
  | invalidJson (msg : String)
  | response (body : Json)

/-- Result of one `sendSourceMapFile` call: the POSTs attempted (endpoint
and uploaded file's path), the console output, and the error message when
the async function rejected (`none` when it returned normally). -/
structure SendOutput where
  attempts : List (String × String)
  logs : List String
  thrown : Option String

/-- The failure line logged by the `catch` block of `sendSourceMapFile`. -/
def sendFailureLine (filePath msg : String) : String :=
  logLine ("(⌐■_■) Sending " ++ filePath ++ " failed: \n\n" ++ msg)
    consoleColors.fgRed false

/-- The success line logged by `sendSourceMapFile`. -/
def sentLine (filePath : String) : String :=
  logLine (filePath ++ " – " ++ wrapInColor "sent" consoleColors.fgGreen)
    consoleColors.fgCyan true

/-- The message of the error thrown on a truthy `error` field:
`new Error(responseData.message ?? responseData.error ?? 'Untitled error')`.
The receiver is known non-null at this point, so `jsGetPropD` agrees with
the JavaScript property access. -/
def errorMessageOf (body : Json) : String :=
  jsValToString
    (nullishCoalesce (jsGetPropD body "message")
      (nullishCoalesce (jsGetPropD body "error") (.val (.str "Untitled error"))))

/-- `sendSourceMapFile(filePath, collectorEndpoint, token, releaseId)`.
The read of the file happens before the `try` block: a missing file rejects
the whole call (`thrown`). Once the read succeeded, the `try`/`catch` turns
every fetch failure, JSON failure, or truthy `error` field into a single
logged failure line, and a clean response into a success line; nothing
thrown escapes. The multipart payload (release field plus file contents
under the original file name, with the `Authorization: Bearer` header) is
consumed by the fetch oracle and not further modelled. -/
def sendSourceMapFile (fetchO : String → FetchOutcome) (fs : FsState)
    (filePath collectorEndpoint token releaseId : String) : SendOutput :=
  match lookupFs fs filePath with
  | none =>
      ⟨[], [], some ("ENOENT: no such file or directory, open " ++ filePath)⟩
  | some _file =>
      match fetchO filePath with
      | .networkError msg =>
          ⟨[(collectorEndpoint, filePath)], [sendFailureLine filePath msg], none⟩
      | .invalidJson msg =>
          ⟨[(collectorEndpoint, filePath)], [sendFailureLine filePath msg], none⟩
      | .response body =>
          match jsGetProp body "error" with
          | .error typeErrMsg =>
              ⟨[(collectorEndpoint, filePath)], [sendFailureLine filePath typeErrMsg], none⟩
          | .ok errVal =>
              if jsTruthy errVal then
                ⟨[(collectorEndpoint, filePath)],
                  [sendFailureLine filePath (errorMessageOf body)], none⟩
              else
                ⟨[(collectorEndpoint, filePath)], [sentLine filePath], none⟩

/-- The line logged by `deleteSourceMapFile` after a successful unlink. -/
def deletedLine (file : String) : String :=
  logLine ("Map " ++ file ++ " deleted") consoleColors.fgCyan true

/-- `deleteSourceMapFile(file)`: unlink the file and log; a missing file
makes `fs.unlink` reject, which propagates (third component). -/
def deleteSourceMapFile (fs : FsState) (file : String) :
    FsState × List String × Option String :=
  match lookupFs fs file with
  | none => (fs, [], some ("ENOENT: no such file or directory, unlink " ++ file))
  | some _ => (removeFs fs file, [deletedLine file], none)

/-- Result of the `writeBundle` hook: final filesystem, POSTs attempted,
console output, and the error the hook rejected with (`none` when the loop
ran to completion). -/
structure RunOutput where
  fs : FsState
  attempts : List (String × String)
  logs : List String
  thrown : Option String

/-- The `for ... of` loop of the `writeBundle` hook over the discovered
sourcemap file names: each file's path is `outDir + '/' + file`; the send is
awaited, then, when `removeSourceMaps` holds, the delete. An error thrown
by either `await` (only filesystem errors can throw there) stops the loop
and rejects the hook. -/
def writeBundleLoop (fetchO : String → FetchOutcome)
    (collectorEndpoint token releaseId : String) (removeSourceMaps : Bool)
    (outDir : String) : FsState → List String → RunOutput
  | fs, [] => ⟨fs, [], [], none⟩
  | fs, file :: rest =>
      let filePath := outDir ++ "/" ++ file
      let s := sendSourceMapFile fetchO fs filePath collectorEndpoint token releaseId
      match s.thrown with
      | some e => ⟨fs, s.attempts, s.logs, some e⟩
      | none =>
          if removeSourceMaps then
            match deleteSourceMapFile fs filePath with
            | (fs1, dlogs, some e) => ⟨fs1, s.attempts, s.logs ++ dlogs, some e⟩
            | (fs1, dlogs, none) =>
                let r := writeBundleLoop fetchO collectorEndpoint token releaseId
                  removeSourceMaps outDir fs1 rest
                ⟨r.fs, s.attempts ++ r.attempts, s.logs ++ dlogs ++ r.logs, r.thrown⟩
          else
            let r := writeBundleLoop fetchO collectorEndpoint token releaseId
              removeSourceMaps outDir fs rest
            ⟨r.fs, s.attempts ++ r.attempts, s.logs ++ r.logs, r.thrown⟩

/-- The `writeBundle` hook: discover the sourcemap files in the bundle info,
then run the upload-and-cleanup loop over them. -/
def writeBundle (fetchO : String → FetchOutcome)
    (collectorEndpoint token releaseId : String) (removeSourceMaps : Bool)
    (outDir : String) (fs : FsState) (bundlesInfo : List BundleItem) : RunOutput :=
  writeBundleLoop fetchO collectorEndpoint token releaseId removeSourceMaps outDir fs
    (getSourceMapsFileNames bundlesInfo)

/-- Plugin setup followed by the post-build hook of the resulting plugin:
`none` when setup returned no plugin (falsy token), otherwise the hook's
run using the configuration the closure captured. -/
def pluginRun (env : JsEnv) (fetchO : String → FetchOutcome) (token : String)
    (release : Option String) (removeSourceMaps : Bool)
    (collectorEndpoint : Option String) (outDir : String) (fs : FsState)
    (bundlesInfo : List BundleItem) : Option RunOutput :=
  match (hawkVitePlugin env token release removeSourceMaps collectorEndpoint).1 with
  | none => none
  | some cfg =>
      some (writeBundle fetchO cfg.collectorEndpoint cfg.token cfg.release
        cfg.removeSourceMaps outDir fs bundlesInfo)

/-! ### Virtual module, transform hook and injection code -/

/-- The reserved virtual module specifier. -/
def virtualModuleId : String := "virtual:hawk/globals"

/-- Its resolved form, prefixed with the null-byte sentinel. -/
def resolvedVirtualModuleId : String := "\x00" ++ virtualModuleId

/-- `resolveId(id)`: map the reserved specifier to its resolved form,
decline everything else. -/
def resolveId (id : String) : Option String :=
  if id == virtualModuleId then some resolvedVirtualModuleId else none

/-- `id.split(/[?|#]/).shift()`: the prefix of the id before the first
`?`, `|` or `#`. -/
def pureIdOf (id : String) : String :=
  String.mk (id.data.takeWhile (fun c => !(c == '?' || c == '|' || c == '#')))

/-- The recognized script extensions. -/
def scriptExt : List String := [".js", ".ts", ".jsx", ".tsx", ".mjs"]

/-- The import statement the transform appends:
`'\n\n;import "' + virtualModuleId + '";'`. -/
def importStatement : String :=
  "\n\n;import \"" ++ virtualModuleId ++ "\";"

/-- The `transform(code, id)` hook, restricted to the code it produces (the
accompanying sourcemap is regenerated by the external magic-string library
and is not modelled): decline the resolved virtual module, ids containing
`node_modules`, and non-script ids (judged on the id with query/hash
suffixes stripped); otherwise append the virtual-module import. -/
def transform (code id : String) : Option String :=
  if id == resolvedVirtualModuleId then
    none
  else if jsIncludes id "node_modules" then
    none
  else
    let pureId := pureIdOf id
    let isScript := (scriptExt.find? (fun ext => jsEndsWith pureId ext)).isSome
    if !isScript then
      none
    else
      some (code ++ importStatement)

/-- `getInjectionCode(release)`: the source text returned by the `load` hook
for the resolved virtual module, with the release interpolated into the
assignment (the template literal of the source, verbatim). -/
def getInjectionCode (release : String) : String :=
  "\n    var _global =\n      typeof window !== \x27undefined\x27 ?\n        window :\n        typeof global !== \x27undefined\x27 ?\n          global :\n          typeof self !== \x27undefined\x27 ?\n            self :\n            \x7b\x7d;\n\n    _global.HAWK_RELEASE=\"" ++ release ++ "\";"

/-- The `load(id)` hook: produce the injection code for the resolved
virtual module, decline everything else. -/
def load (release : String) (id : String) : Option String :=
  if id == resolvedVirtualModuleId then some (getInjectionCode release) else none

/-- Abstract syntax of the expressions occurring in the injection snippet:
a variable reference, the empty object literal, or the ternary
`typeof name !== 'undefined' ? thenBranch : elseBranch`. -/
inductive JsExpr where
  | varRef (name : String)
  | emptyObject
  | ifDefinedElse (name : String) (thenBranch elseBranch : JsExpr)

/-- Renders an expression with the snippet's formatting; `ind` is the
indentation of the current ternary's branches minus two spaces. -/
def renderExpr (ind : String) : JsExpr → String
  | .varRef name => name
  | .emptyObject => "\x7b\x7d"
  | .ifDefinedElse name t e =>
      "typeof " ++ name ++ " !== \x27undefined\x27 ?\n" ++ ind ++ "  "
        ++ renderExpr (ind ++ "  ") t ++ " :\n" ++ ind ++ "  "
        ++ renderExpr (ind ++ "  ") e

/-- The global-object selection expression of the injection snippet:
window, else global, else self, else a fresh empty object. -/
def injectionExpr : JsExpr :=
  .ifDefinedElse "window" (.varRef "window")
    (.ifDefinedElse "global" (.varRef "global")
      (.ifDefinedElse "self" (.varRef "self") .emptyObject))

/-- The injection snippet rendered from its abstract syntax: the `_global`
declaration followed by the `HAWK_RELEASE` assignment. -/
def renderInjection (release : String) : String :=
  "\n    var _global =\n      " ++ renderExpr "      " injectionExpr
    ++ ";\n\n    _global.HAWK_RELEASE=\"" ++ release ++ "\";"

/-- Which of the three global names are defined in the executing
environment. -/
structure GlobalScope where
  windowDefined : Bool
  globalDefined : Bool
  selfDefined : Bool

/-- The object the snippet assigns to: one of the three globals, or the
fresh empty object fallback. -/
inductive GlobalTarget where
  | window
  | globalObj
  | selfObj
  | freshObject
deriving DecidableEq

/-- Whether `typeof name !== 'undefined'` holds in the scope. -/
def definedIn (sc : GlobalScope) (name : String) : Bool :=
  if name == "window" then sc.windowDefined
  else if name == "global" then sc.globalDefined
  else if name == "self" then sc.selfDefined
  else false

/-- Evaluation of a selection expression in a scope. -/
def evalExpr (sc : GlobalScope) : JsExpr → GlobalTarget
  | .varRef name =>
      if name == "window" then .window
      else if name == "global" then .globalObj
      else if name == "self" then .selfObj
      else .freshObject
  | .emptyObject => .freshObject
  | .ifDefinedElse name t e =>
      if definedIn sc name then evalExpr sc t else evalExpr sc e

/-- The effect of evaluating the injection snippet in a scope: the chosen
target object, the property written, and the value written. -/
def runInjection (sc : GlobalScope) (release : String) :
    GlobalTarget × String × String :=
  (evalExpr sc injectionExpr, "HAWK_RELEASE", release)

/-! ### Specification helpers and concrete environments -/

/-- The single console line produced by a `sendSourceMapFile` call whose
file read succeeded; it depends only on the fetch outcome for the path. -/
def perFileSendLog (fetchO : String → FetchOutcome) (filePath : String) : String :=
  match fetchO filePath with
  | .networkError msg => sendFailureLine filePath msg
  | .invalidJson msg => sendFailureLine filePath msg
  | .response body =>
      match jsGetProp body "error" with
      | .error typeErrMsg => sendFailureLine filePath typeErrMsg
      | .ok errVal =>
          if jsTruthy errVal then sendFailureLine filePath (errorMessageOf body)
          else sentLine filePath

/-- Console output of one loop iteration for one file: the send line, then
the deletion line when the removal policy is active. -/
def perFileLogs (fetchO : String → FetchOutcome) (rm : Bool) (outDir : String)
    (file : String) : List String :=
  perFileSendLog fetchO (outDir ++ "/" ++ file)
    :: (if rm then [deletedLine (outDir ++ "/" ++ file)] else [])

/-- A runtime environment whose `JSON.parse` always throws: no integration
id can be decoded from any token under it. -/
def envBadToken : JsEnv := ⟨fun s => s, fun _ => none, "Mon Jan 01 2026"⟩

/-- A runtime environment whose `JSON.parse` decodes the token `good-token`
to an object carrying the integration id `abc123` and throws on everything
else. -/
def envGoodToken : JsEnv :=
  ⟨fun s => s,
   fun s => if s == "good-token" then some (.obj [("integrationId", .str "abc123")]) else none,
   "Mon Jan 01 2026"⟩

/-- A fetch oracle under which the upload of `dist/a.map` is answered by a
body whose `error` field is true and whose `message` field is `bad file`,
and every other upload succeeds. -/
def fetchBadFile : String → FetchOutcome := fun p =>
  if p == "dist/a.map" then
    .response (.obj [("error", .bool true), ("message", .str "bad file")])
  else
    .response (.obj [("error", .bool false)])

/-! ### Lemmas about the embedded operations -/


/-! ### Helper lemmas -/

theorem lookupFs_cons (e : String × String) (t : FsState) (q : String) :
    lookupFs (e :: t) q = if e.1 = q then some e.2 else lookupFs t q := by
  by_cases h : e.1 = q <;>
    simp [lookupFs, List.find?_cons_of_pos, List.find?_cons_of_neg, h]

theorem removeFs_cons (e : String × String) (t : FsState) (p : String) :
    removeFs (e :: t) p = if e.1 = p then removeFs t p else e :: removeFs t p := by
  by_cases h : e.1 = p <;> simp [removeFs, List.filter_cons, h]

theorem lookupFs_removeFs (fs : FsState) (p q : String) :
    lookupFs (removeFs fs p) q = if q = p then none else lookupFs fs q := by
  induction fs with
  | nil => by_cases hq : q = p <;> simp [lookupFs, removeFs, hq]
  | cons e t ih =>
      rw [removeFs_cons]
      by_cases he : e.1 = p
      · rw [if_pos he, ih, lookupFs_cons]
        by_cases hq : q = p
        · simp [hq]
        · have : ¬ (e.1 = q) := fun hh => hq (by rw [← hh, he])
          simp [hq, this]
      · rw [if_neg he, lookupFs_cons, lookupFs_cons, ih]
        by_cases heq : e.1 = q
        · have : ¬ (q = p) := fun hh => he (by rw [heq, hh])
          simp [heq, this]
        · simp [heq]

theorem sendSourceMapFile_found (fetchO : String → FetchOutcome) (fs : FsState)
    (filePath ep tok rel c : String) (h : lookupFs fs filePath = some c) :
    sendSourceMapFile fetchO fs filePath ep tok rel =
      ⟨[(ep, filePath)], [perFileSendLog fetchO filePath], none⟩ := by
  cases hf : fetchO filePath with
  | networkError msg => simp [sendSourceMapFile, perFileSendLog, h, hf]
  | invalidJson msg => simp [sendSourceMapFile, perFileSendLog, h, hf]
  | response body =>
      cases hg : jsGetProp body "error" with
      | error m => simp [sendSourceMapFile, perFileSendLog, h, hf, hg]
      | ok v =>
          by_cases ht : jsTruthy v <;>
            simp [sendSourceMapFile, perFileSendLog, h, hf, hg, ht]

theorem writeBundleLoop_cons_missing (fetchO : String → FetchOutcome)
    (ep tok rel : String) (rm : Bool) (outDir : String) (fs : FsState)
    (file : String) (rest : List String)
    (h : lookupFs fs (outDir ++ "/" ++ file) = none) :
    writeBundleLoop fetchO ep tok rel rm outDir fs (file :: rest) =
      ⟨fs, [], [],
        some ("ENOENT: no such file or directory, open " ++ (outDir ++ "/" ++ file))⟩ := by
  simp [writeBundleLoop, sendSourceMapFile, h]

theorem writeBundleLoop_cons_found_rm (fetchO : String → FetchOutcome)
    (ep tok rel : String) (outDir : String) (fs : FsState)
    (file : String) (rest : List String) (c : String)
    (h : lookupFs fs (outDir ++ "/" ++ file) = some c) :
    writeBundleLoop fetchO ep tok rel true outDir fs (file :: rest) =
      let fp := outDir ++ "/" ++ file
      let r := writeBundleLoop fetchO ep tok rel true outDir (removeFs fs fp) rest
      ⟨r.fs, (ep, fp) :: r.attempts,
        perFileSendLog fetchO fp :: deletedLine fp :: r.logs, r.thrown⟩ := by
  simp only [writeBundleLoop,
    sendSourceMapFile_found fetchO fs (outDir ++ "/" ++ file) ep tok rel c h,
    deleteSourceMapFile, h]
  simp

theorem writeBundleLoop_cons_found_norm (fetchO : String → FetchOutcome)
    (ep tok rel : String) (outDir : String) (fs : FsState)
    (file : String) (rest : List String) (c : String)
    (h : lookupFs fs (outDir ++ "/" ++ file) = some c) :
    writeBundleLoop fetchO ep tok rel false outDir fs (file :: rest) =
      let fp := outDir ++ "/" ++ file
      let r := writeBundleLoop fetchO ep tok rel false outDir fs rest
      ⟨r.fs, (ep, fp) :: r.attempts, perFileSendLog fetchO fp :: r.logs, r.thrown⟩ := by
  simp only [writeBundleLoop,
    sendSourceMapFile_found fetchO fs (outDir ++ "/" ++ file) ep tok rel c h]
  simp

theorem writeBundleLoop_complete (fetchO : String → FetchOutcome)
    (ep tok rel : String) (rm : Bool) (outDir : String) :
    ∀ (files : List String) (fs : FsState),
      (∀ f ∈ files, (lookupFs fs (outDir ++ "/" ++ f)).isSome = true) →
      (files.map (fun f => outDir ++ "/" ++ f)).Nodup →
      (writeBundleLoop fetchO ep tok rel rm outDir fs files).thrown = none ∧
      (writeBundleLoop fetchO ep tok rel rm outDir fs files).attempts
        = files.map (fun f => (ep, outDir ++ "/" ++ f)) ∧
      (writeBundleLoop fetchO ep tok rel rm outDir fs files).logs
        = files.flatMap (perFileLogs fetchO rm outDir) := by
  intro files
  induction files with
  | nil => intro fs _ _; exact ⟨rfl, rfl, rfl⟩
  | cons file rest ih =>
      intro fs hpres hnd
      obtain ⟨c, hc⟩ := Option.isSome_iff_exists.mp (hpres file (by simp))
      have hnd2 : (∀ x ∈ rest, ¬ outDir ++ "/" ++ x = outDir ++ "/" ++ file)
          ∧ (rest.map (fun f => outDir ++ "/" ++ f)).Nodup := by simpa using hnd
      have hndrest := hnd2.2
      have hne : ∀ g ∈ rest, outDir ++ "/" ++ g ≠ outDir ++ "/" ++ file :=
        fun g hg heq => hnd2.1 g hg heq
      cases rm with
      | true =>
          rw [writeBundleLoop_cons_found_rm fetchO ep tok rel outDir fs file rest c hc]
          have hpres2 : ∀ f ∈ rest,
              (lookupFs (removeFs fs (outDir ++ "/" ++ file)) (outDir ++ "/" ++ f)).isSome
                = true := by
            intro g hg
            rw [lookupFs_removeFs, if_neg (hne g hg)]
            exact hpres g (by simp [hg])
          obtain ⟨h1, h2, h3⟩ := ih (removeFs fs (outDir ++ "/" ++ file)) hpres2 hndrest
          refine ⟨h1, ?_, ?_⟩
          · simp [h2]
          · simp [h3, perFileLogs]
      | false =>
          rw [writeBundleLoop_cons_found_norm fetchO ep tok rel outDir fs file rest c hc]
          obtain ⟨h1, h2, h3⟩ := ih fs (fun g hg => hpres g (by simp [hg])) hndrest
          refine ⟨h1, ?_, ?_⟩
          · simp [h2]
          · simp [h3, perFileLogs]

theorem writeBundleLoop_fs_none (fetchO : String → FetchOutcome)
    (ep tok rel : String) (rm : Bool) (outDir : String) :
    ∀ (files : List String) (fs : FsState) (p : String),
      lookupFs fs p = none →
      lookupFs (writeBundleLoop fetchO ep tok rel rm outDir fs files).fs p = none := by
  intro files
  induction files with
  | nil => intro fs p h; exact h
  | cons file rest ih =>
      intro fs p h
      cases hc : lookupFs fs (outDir ++ "/" ++ file) with
      | none =>
          rw [writeBundleLoop_cons_missing fetchO ep tok rel rm outDir fs file rest hc]
          exact h
      | some c =>
          cases rm with
          | true =>
              rw [writeBundleLoop_cons_found_rm fetchO ep tok rel outDir fs file rest c hc]
              exact ih _ p (by rw [lookupFs_removeFs]; split <;> simp [h])
          | false =>
              rw [writeBundleLoop_cons_found_norm fetchO ep tok rel outDir fs file rest c hc]
              exact ih fs p h

theorem writeBundleLoop_rm_false_fs (fetchO : String → FetchOutcome)
    (ep tok rel : String) (outDir : String) :
    ∀ (files : List String) (fs : FsState),
      (writeBundleLoop fetchO ep tok rel false outDir fs files).fs = fs := by
  intro files
  induction files with
  | nil => intro fs; rfl
  | cons file rest ih =>
      intro fs
      cases hc : lookupFs fs (outDir ++ "/" ++ file) with
      | none =>
          rw [writeBundleLoop_cons_missing fetchO ep tok rel false outDir fs file rest hc]
      | some c =>
          rw [writeBundleLoop_cons_found_norm fetchO ep tok rel outDir fs file rest c hc]
          exact ih fs

theorem writeBundleLoop_deletes (fetchO : String → FetchOutcome)
    (ep tok rel : String) (outDir : String) (f : String) (post : List String) :
    ∀ (pre : List String) (fs : FsState),
      (∀ g ∈ pre ++ [f], (lookupFs fs (outDir ++ "/" ++ g)).isSome = true) →
      ((pre ++ [f]).map (fun g => outDir ++ "/" ++ g)).Nodup →
      lookupFs (writeBundleLoop fetchO ep tok rel true outDir fs (pre ++ f :: post)).fs
        (outDir ++ "/" ++ f) = none := by
  intro pre
  induction pre with
  | nil =>
      intro fs hpres _
      obtain ⟨c, hc⟩ := Option.isSome_iff_exists.mp (hpres f (by simp))
      rw [List.nil_append,
        writeBundleLoop_cons_found_rm fetchO ep tok rel outDir fs f post c hc]
      exact writeBundleLoop_fs_none fetchO ep tok rel true outDir post _ _
        (by rw [lookupFs_removeFs]; simp)
  | cons g pre' ih =>
      intro fs hpres hnd
      obtain ⟨c, hc⟩ := Option.isSome_iff_exists.mp (hpres g (by simp))
      rw [List.cons_append, List.map_cons, List.nodup_cons] at hnd
      have hne : ∀ x ∈ pre' ++ [f], outDir ++ "/" ++ x ≠ outDir ++ "/" ++ g := by
        intro x hx heq
        exact hnd.1 (heq ▸ List.mem_map_of_mem _ hx)
      rw [List.cons_append,
        writeBundleLoop_cons_found_rm fetchO ep tok rel outDir fs g (pre' ++ f :: post) c hc]
      exact ih (removeFs fs (outDir ++ "/" ++ g))
        (fun x hx => by
          rw [lookupFs_removeFs, if_neg (hne x hx)]
          exact hpres x (by rw [List.cons_append]; exact List.mem_cons_of_mem _ hx))
        hnd.2

theorem writeBundleLoop_aborts (fetchO : String → FetchOutcome)
    (ep tok rel : String) (rm : Bool) (outDir : String) (f : String)
    (post : List String) :
    ∀ (pre : List String) (fs : FsState),
      (∀ g ∈ pre, (lookupFs fs (outDir ++ "/" ++ g)).isSome = true) →
      (pre.map (fun g => outDir ++ "/" ++ g)).Nodup →
      lookupFs fs (outDir ++ "/" ++ f) = none →
      (writeBundleLoop fetchO ep tok rel rm outDir fs (pre ++ f :: post)).thrown
          = some ("ENOENT: no such file or directory, open " ++ (outDir ++ "/" ++ f)) ∧
      (writeBundleLoop fetchO ep tok rel rm outDir fs (pre ++ f :: post)).attempts
          = pre.map (fun g => (ep, outDir ++ "/" ++ g)) := by
  intro pre
  induction pre with
  | nil =>
      intro fs _ _ hf
      rw [List.nil_append,
        writeBundleLoop_cons_missing fetchO ep tok rel rm outDir fs f post hf]
      exact ⟨rfl, rfl⟩
  | cons g pre' ih =>
      intro fs hpres hnd hf
      obtain ⟨c, hc⟩ := Option.isSome_iff_exists.mp (hpres g (by simp))
      rw [List.map_cons, List.nodup_cons] at hnd
      have hne : ∀ x ∈ pre', outDir ++ "/" ++ x ≠ outDir ++ "/" ++ g := by
        intro x hx heq
        exact hnd.1 (heq ▸ List.mem_map_of_mem _ hx)
      cases rm with
      | true =>
          rw [List.cons_append,
            writeBundleLoop_cons_found_rm fetchO ep tok rel outDir fs g (pre' ++ f :: post) c hc]
          obtain ⟨h1, h2⟩ := ih (removeFs fs (outDir ++ "/" ++ g))
            (fun x hx => by
              rw [lookupFs_removeFs, if_neg (hne x hx)]
              exact hpres x (List.mem_cons_of_mem _ hx))
            hnd.2
            (by rw [lookupFs_removeFs]; split <;> simp [hf])
          exact ⟨h1, by simp [h2]⟩
      | false =>
          rw [List.cons_append,
            writeBundleLoop_cons_found_norm fetchO ep tok rel outDir fs g (pre' ++ f :: post) c hc]
          obtain ⟨h1, h2⟩ := ih fs (fun x hx => hpres x (List.mem_cons_of_mem _ hx))
            hnd.2 hf
          exact ⟨h1, by simp [h2]⟩


/-- Happy path of the decoder: a parsed token object whose `integrationId`
field is a non-empty string yields that id with no error output. -/
theorem getIntegrationId_of_str_field (env : JsEnv) (integrationToken : String)
    (j : Json) (s : String)
    (hp : env.jsonParse (env.base64ToUtf8 integrationToken) = some j)
    (hg : jsGetProp j "integrationId" = .ok (.val (.str s))) (hs : s ≠ "") :
    getIntegrationId env integrationToken = (some (.str s), []) := by
  simp [getIntegrationId, hp, hg, jsTruthy, hs]


/-- C1: refuted by the code (code bug). With a non-empty token from which no
integration id can be decoded and no collectorEndpoint override, the plugin
does NOT refuse to proceed: setup logs the decode failure but derives the
endpoint by interpolating `undefined`, yielding
`https://undefined.k1.hawk.so/release`, and the post-build hook still
attempts the upload of a discovered sourcemap against that endpoint. -/
theorem undecodableTokenStillUploads :
    (hawkVitePlugin envBadToken "not-a-valid-token" none true none).1.map
        (fun cfg => cfg.collectorEndpoint) = some "https://undefined.k1.hawk.so/release" ∧
    (hawkVitePlugin envBadToken "not-a-valid-token" none true none).2
        = [invalidTokenMessage] ∧
    (pluginRun envBadToken
        (fun _ => .networkError "getaddrinfo ENOTFOUND undefined.k1.hawk.so")
        "not-a-valid-token" none true none "dist"
        [("dist/index.js.map", "sourcemap-contents")]
        [⟨"chunk", "index.js"⟩, ⟨"asset", "index.js.map"⟩]).map (fun r => r.attempts)
      = some [("https://undefined.k1.hawk.so/release", "dist/index.js.map")] := by
  refine ⟨rfl, rfl, ?_⟩
  decide



/-- C2: an upload failure (rejected fetch, or a response body with a truthy
`error` field) is isolated to its file: the loop logs a failure line naming
the file and the error message, still attempts the upload of every file of
the sequence, and the hook does not reject. Hypotheses: every discovered
file exists in the output directory and the file paths are pairwise
distinct (bundle file names are the keys of the bundle object). -/
theorem uploadFailureIsolated (fetchO : String → FetchOutcome)
    (ep tok rel : String) (rm : Bool) (outDir : String)
    (files : List String) (fs : FsState) (f m : String)
    (hpres : ∀ g ∈ files, (lookupFs fs (outDir ++ "/" ++ g)).isSome = true)
    (hnd : (files.map (fun g => outDir ++ "/" ++ g)).Nodup)
    (hf : f ∈ files)
    (hfail : fetchO (outDir ++ "/" ++ f) = .networkError m ∨
      ∃ body errVal, fetchO (outDir ++ "/" ++ f) = .response body ∧
        jsGetProp body "error" = .ok errVal ∧ jsTruthy errVal = true ∧
        errorMessageOf body = m) :
    (writeBundleLoop fetchO ep tok rel rm outDir fs files).thrown = none ∧
    sendFailureLine (outDir ++ "/" ++ f) m
        ∈ (writeBundleLoop fetchO ep tok rel rm outDir fs files).logs ∧
    ∀ g ∈ files, (ep, outDir ++ "/" ++ g)
        ∈ (writeBundleLoop fetchO ep tok rel rm outDir fs files).attempts := by
  obtain ⟨h1, h2, h3⟩ :=
    writeBundleLoop_complete fetchO ep tok rel rm outDir files fs hpres hnd
  refine ⟨h1, ?_, ?_⟩
  · rw [h3]
    have hline : perFileSendLog fetchO (outDir ++ "/" ++ f)
        = sendFailureLine (outDir ++ "/" ++ f) m := by
      rcases hfail with hn | ⟨body, errVal, hb, hg, ht, hm⟩
      · simp [perFileSendLog, hn]
      · simp [perFileSendLog, hb, hg, ht, hm]
    exact List.mem_flatMap.mpr ⟨f, hf, by simp [perFileLogs, hline]⟩
  · intro g hg
    rw [h2]
    exact List.mem_map_of_mem _ hg

/-- C2 witness: concrete two-file run in which the first upload is answered
with a truthy error field carrying the message `bad file`. -/
theorem uploadFailureIsolated_witness :
    (writeBundleLoop fetchBadFile "EP" "tok" "rel" true "dist"
        [("dist/a.map", "x"), ("dist/b.map", "y")] ["a.map", "b.map"]).thrown = none ∧
    sendFailureLine "dist/a.map" "bad file"
        ∈ (writeBundleLoop fetchBadFile "EP" "tok" "rel" true "dist"
            [("dist/a.map", "x"), ("dist/b.map", "y")] ["a.map", "b.map"]).logs ∧
    ∀ g ∈ ["a.map", "b.map"], ("EP", "dist" ++ "/" ++ g)
        ∈ (writeBundleLoop fetchBadFile "EP" "tok" "rel" true "dist"
            [("dist/a.map", "x"), ("dist/b.map", "y")] ["a.map", "b.map"]).attempts :=
  uploadFailureIsolated fetchBadFile "EP" "tok" "rel" true "dist" ["a.map", "b.map"]
    [("dist/a.map", "x"), ("dist/b.map", "y")] "a.map" "bad file"
    (by decide) (by decide) (by decide)
    (Or.inr ⟨.obj [("error", .bool true), ("message", .str "bad file")],
      .val (.bool true), rfl, rfl, rfl,
      by simp [errorMessageOf, jsGetPropD, jsGetProp, nullishCoalesce, jsNullish,
        jsValToString, jsonToString]⟩)

/-- C3 counterexample: with `dist/a.map` missing but `dist/b.map` present
and its upload bound to succeed, the hook rejects with the read error of the
first file, attempts no upload at all (in particular none for the remaining
file `b.map`), and logs nothing: the file-system error is not isolated. -/
theorem fsErrorNotIsolatedCex :
    (writeBundleLoop (fun _ => .response (.obj [("error", .bool false)]))
        "https://abc123.k1.hawk.so/release" "tok" "2026" true "dist"
        [("dist/b.map", "mapdata")] ["a.map", "b.map"]).thrown
      = some "ENOENT: no such file or directory, open dist/a.map" ∧
    (writeBundleLoop (fun _ => .response (.obj [("error", .bool false)]))
        "https://abc123.k1.hawk.so/release" "tok" "2026" true "dist"
        [("dist/b.map", "mapdata")] ["a.map", "b.map"]).attempts = [] ∧
    (writeBundleLoop (fun _ => .response (.obj [("error", .bool false)]))
        "https://abc123.k1.hawk.so/release" "tok" "2026" true "dist"
        [("dist/b.map", "mapdata")] ["a.map", "b.map"]).logs = [] := by
  refine ⟨?_, ?_, ?_⟩ <;> decide

/-- C3 amended: a file-system read error while processing one file is NOT
isolated to that file: the loop stops, the hook rejects with that error,
and no later file is processed (the attempts are exactly those of the files
before the failing one). -/
theorem fsErrorAbortsLoop (fetchO : String → FetchOutcome)
    (ep tok rel : String) (rm : Bool) (outDir f : String)
    (post pre : List String) (fs : FsState)
    (hpre : ∀ g ∈ pre, (lookupFs fs (outDir ++ "/" ++ g)).isSome = true)
    (hnd : (pre.map (fun g => outDir ++ "/" ++ g)).Nodup)
    (hf : lookupFs fs (outDir ++ "/" ++ f) = none) :
    (writeBundleLoop fetchO ep tok rel rm outDir fs (pre ++ f :: post)).thrown
        = some ("ENOENT: no such file or directory, open " ++ (outDir ++ "/" ++ f)) ∧
    (writeBundleLoop fetchO ep tok rel rm outDir fs (pre ++ f :: post)).attempts
        = pre.map (fun g => (ep, outDir ++ "/" ++ g)) :=
  writeBundleLoop_aborts fetchO ep tok rel rm outDir f post pre fs hpre hnd hf

/-- C3 amended witness: three discovered files with the middle one missing;
the hook rejects and only the first file was uploaded. -/
theorem fsErrorAbortsLoop_witness :
    (writeBundleLoop (fun _ => .response (.obj [])) "EP" "tok" "rel" true "dist"
        [("dist/a.map", "x"), ("dist/c.map", "z")] ["a.map", "b.map", "c.map"]).thrown
      = some "ENOENT: no such file or directory, open dist/b.map" ∧
    (writeBundleLoop (fun _ => .response (.obj [])) "EP" "tok" "rel" true "dist"
        [("dist/a.map", "x"), ("dist/c.map", "z")] ["a.map", "b.map", "c.map"]).attempts
      = [("EP", "dist/a.map")] :=
  fsErrorAbortsLoop (fun _ => .response (.obj [])) "EP" "tok" "rel" true "dist" "b.map"
    ["c.map"] ["a.map"] [("dist/a.map", "x"), ("dist/c.map", "z")]
    (by decide) (by decide) (by decide)

/-- C4: sourcemap discovery is pure and total; on the empty listing it
yields the empty sequence; a name is in its output exactly when some entry
of the listing has kind `asset` and a name ending in `.map` and the name is
that entry's; and the output is a sublist of the listing's names in listing
order (so chunk entries and non-map assets are excluded and no reordering
happens). -/
theorem getSourceMapsFileNames_spec :
    getSourceMapsFileNames [] = [] ∧
    (∀ (bundlesInfo : List BundleItem) (x : String),
      x ∈ getSourceMapsFileNames bundlesInfo ↔
        ∃ item ∈ bundlesInfo,
          item.type = "asset" ∧ jsEndsWith item.fileName ".map" = true
            ∧ x = item.fileName) ∧
    (∀ bundlesInfo : List BundleItem,
      List.Sublist (getSourceMapsFileNames bundlesInfo)
        (bundlesInfo.map (fun item => item.fileName))) := by
  refine ⟨rfl, ?_, ?_⟩
  · intro bundlesInfo x
    simp only [getSourceMapsFileNames, List.mem_map, List.mem_filter,
      Bool.and_eq_true, beq_iff_eq]
    constructor
    · rintro ⟨item, ⟨hm, ht, he⟩, hx⟩
      exact ⟨item, hm, ht, he, hx.symm⟩
    · rintro ⟨item, hm, ht, he, hx⟩
      exact ⟨item, ⟨hm, ht, he⟩, hx.symm⟩
  · intro bundlesInfo
    exact List.Sublist.map _ (List.filter_sublist _)



/-- C5: the removal policy. With `removeSourceMaps = true`, once the upload
step of a file ran without throwing (its read succeeded), the local file is
absent from the final filesystem whatever the fetch oracle answered for it
or for any other file; with `removeSourceMaps = false`, the hook leaves the
filesystem untouched no matter what happens. -/
theorem removeSourceMapsPolicy (fetchO : String → FetchOutcome)
    (ep tok rel outDir : String) (f : String) :
    (∀ (pre post : List String) (fs : FsState),
      (∀ g ∈ pre ++ [f], (lookupFs fs (outDir ++ "/" ++ g)).isSome = true) →
      ((pre ++ [f]).map (fun g => outDir ++ "/" ++ g)).Nodup →
      lookupFs (writeBundleLoop fetchO ep tok rel true outDir fs (pre ++ f :: post)).fs
        (outDir ++ "/" ++ f) = none) ∧
    (∀ (files : List String) (fs : FsState),
      (writeBundleLoop fetchO ep tok rel false outDir fs files).fs = fs) :=
  ⟨fun pre post fs h1 h2 =>
      writeBundleLoop_deletes fetchO ep tok rel outDir f post pre fs h1 h2,
   fun files fs => writeBundleLoop_rm_false_fs fetchO ep tok rel outDir files fs⟩

/-- C5 witness: with the removal policy active a file whose upload failed
with a network error is deleted anyway; with the policy inactive the
filesystem is unchanged. -/
theorem removeSourceMapsPolicy_witness :
    lookupFs (writeBundleLoop (fun _ => .networkError "socket hang up") "EP" "tok" "rel"
        true "dist" [("dist/a.map", "x"), ("dist/b.map", "y")] ["a.map", "b.map"]).fs
      "dist/a.map" = none ∧
    (writeBundleLoop (fun _ => .networkError "socket hang up") "EP" "tok" "rel"
        false "dist" [("dist/a.map", "x")] ["a.map"]).fs = [("dist/a.map", "x")] :=
  ⟨(removeSourceMapsPolicy (fun _ => .networkError "socket hang up") "EP" "tok" "rel"
      "dist" "a.map").1 [] ["b.map"] [("dist/a.map", "x"), ("dist/b.map", "y")]
      (by decide) (by decide),
   (removeSourceMapsPolicy (fun _ => .networkError "socket hang up") "EP" "tok" "rel"
      "dist" "a.map").2 ["a.map"] [("dist/a.map", "x")]⟩

/-- C6: the integration-id decoder. When the parsed token is a JSON object
whose `integrationId` field is a non-empty string, the decoder returns it
and logs nothing; whenever it returns a value the error log is empty;
whenever it returns no value (any failing step: parse error, property
access on `null`, missing, falsy or empty field) it logs exactly the
`Invalid Integration token` error. The decoder is a total function, so no
failure throws out of plugin setup. -/
theorem getIntegrationId_spec (env : JsEnv) (integrationToken : String) :
    (∀ j s, env.jsonParse (env.base64ToUtf8 integrationToken) = some j →
      jsGetProp j "integrationId" = .ok (.val (.str s)) → s ≠ "" →
      getIntegrationId env integrationToken = (some (.str s), [])) ∧
    (∀ j, (getIntegrationId env integrationToken).1 = some j →
      (getIntegrationId env integrationToken).2 = []) ∧
    ((getIntegrationId env integrationToken).1 = none →
      (getIntegrationId env integrationToken).2 = [invalidTokenMessage]) := by
  refine ⟨?_, ?_, ?_⟩
  · exact fun j s hp hg hs =>
      getIntegrationId_of_str_field env integrationToken j s hp hg hs
  · intro j
    cases hp : env.jsonParse (env.base64ToUtf8 integrationToken) with
    | none => simp [getIntegrationId, hp]
    | some d =>
        cases hg : jsGetProp d "integrationId" with
        | error e => simp [getIntegrationId, hp, hg]
        | ok v =>
            simp only [getIntegrationId, hp, hg]
            split
            · simp
            · cases v with
              | undefined => simp
              | val jv => simp
  · cases hp : env.jsonParse (env.base64ToUtf8 integrationToken) with
    | none => simp [getIntegrationId, hp]
    | some d =>
        cases hg : jsGetProp d "integrationId" with
        | error e => simp [getIntegrationId, hp, hg]
        | ok v =>
            simp only [getIntegrationId, hp, hg]
            split
            · simp
            · cases v with
              | undefined => simp
              | val jv => simp

/-- C6 witness: the decoder extracts `abc123` from a token decoding to an
object with that integration id, and logs nothing. -/
theorem getIntegrationId_spec_witness :
    getIntegrationId envGoodToken "good-token" = (some (.str "abc123"), []) :=
  (getIntegrationId_spec envGoodToken "good-token").1
    (.obj [("integrationId", .str "abc123")]) "abc123" rfl rfl (by decide)

/-- C7: with a token decoding to `\x7b"integrationId":"abc123"\x7d` and no
collectorEndpoint override, the endpoint captured by the plugin closure is
exactly `https://abc123.k1.hawk.so/release`. -/
theorem derivedEndpoint_spec (env : JsEnv) (token : String) (release : Option String)
    (rm : Bool) (htok : token ≠ "")
    (hp : env.jsonParse (env.base64ToUtf8 token)
      = some (.obj [("integrationId", .str "abc123")])) :
    (hawkVitePlugin env token release rm none).1.map (fun cfg => cfg.collectorEndpoint)
      = some "https://abc123.k1.hawk.so/release" := by
  have hid : getIntegrationId env token = (some (.str "abc123"), []) :=
    getIntegrationId_of_str_field env token (.obj [("integrationId", .str "abc123")])
      "abc123" hp rfl (by decide)
  simp only [hawkVitePlugin, strOptFalsy, hid]
  simp [htok, jsOptToString]
  rw [show jsonToString (.str "abc123") = "abc123" by simp [jsonToString]]
  decide

/-- C7 witness: the endpoint derived under `envGoodToken`. -/
theorem derivedEndpoint_spec_witness :
    (hawkVitePlugin envGoodToken "good-token" (some "1.0.0") true none).1.map
        (fun cfg => cfg.collectorEndpoint) = some "https://abc123.k1.hawk.so/release" :=
  derivedEndpoint_spec envGoodToken "good-token" (some "1.0.0") true (by decide) rfl



/-- C8: the transform hook appends the one virtual-module import statement
exactly when the id is not the resolved virtual module, does not contain
`node_modules`, and (after stripping query/hash suffixes) ends with one of
the recognized script extensions; for every other id it declines (returns
nothing, leaving the module's code untouched). -/
theorem transform_spec (code id : String) :
    (transform code id = some (code ++ importStatement) ↔
      (id ≠ resolvedVirtualModuleId ∧ jsIncludes id "node_modules" = false ∧
        ∃ ext ∈ scriptExt, jsEndsWith (pureIdOf id) ext = true)) ∧
    (¬ (id ≠ resolvedVirtualModuleId ∧ jsIncludes id "node_modules" = false ∧
        ∃ ext ∈ scriptExt, jsEndsWith (pureIdOf id) ext = true) →
      transform code id = none) := by
  constructor
  · constructor
    · intro h
      by_cases h1 : id = resolvedVirtualModuleId
      · simp [transform, h1] at h
      · by_cases h2 : jsIncludes id "node_modules"
        · simp [transform, h1, h2] at h
        · by_cases h3 : (scriptExt.find? (fun ext => jsEndsWith (pureIdOf id) ext)).isSome
          · exact ⟨h1, by simpa using h2, by simpa [List.find?_isSome] using h3⟩
          · simp [transform, h1, h2, h3] at h
    · rintro ⟨h1, h2, h3⟩
      have h3' : (scriptExt.find? (fun ext => jsEndsWith (pureIdOf id) ext)).isSome
          = true := by
        rw [List.find?_isSome]
        exact h3
      simp [transform, h1, h2, h3']
  · intro h
    by_cases h1 : id = resolvedVirtualModuleId
    · simp [transform, h1]
    · by_cases h2 : jsIncludes id "node_modules"
      · simp [transform, h1, h2]
      · by_cases h3 : (scriptExt.find? (fun ext => jsEndsWith (pureIdOf id) ext)).isSome
        · exact absurd ⟨h1, by simpa using h2, by simpa [List.find?_isSome] using h3⟩ h
        · simp [transform, h1, h2, h3]

/-- C8 witness: a script id (with a query suffix) is transformed by
appending the import; a stylesheet and a `node_modules` file are declined. -/
theorem transform_spec_witness :
    transform "const n = 1;" "/src/app.jsx?v=1" = some ("const n = 1;" ++ importStatement) ∧
    transform "styles" "/src/app.css" = none ∧
    transform "lib" "/repo/node_modules/pkg/index.js" = none :=
  ⟨(transform_spec "const n = 1;" "/src/app.jsx?v=1").1.mpr
      ⟨by decide, by decide, ".jsx", by decide, by decide⟩,
   (transform_spec "styles" "/src/app.css").2 (by decide),
   (transform_spec "lib" "/repo/node_modules/pkg/index.js").2 (by decide)⟩

/-- C9: the injection code. The string produced by `getInjectionCode` is
exactly the rendering of the global-selection abstract syntax followed by
the `HAWK_RELEASE` assignment of the release identifier, and evaluating
that syntax picks the browser `window` object when defined, else the
server-side `global` object when defined, else `self` when defined (else a
fresh empty object), and writes the release string to the `HAWK_RELEASE`
property of the chosen object. -/
theorem getInjectionCode_spec (release : String) (sc : GlobalScope) :
    getInjectionCode release = renderInjection release ∧
    (runInjection sc release).2.1 = "HAWK_RELEASE" ∧
    (runInjection sc release).2.2 = release ∧
    (sc.windowDefined = true → (runInjection sc release).1 = .window) ∧
    (sc.windowDefined = false → sc.globalDefined = true →
      (runInjection sc release).1 = .globalObj) ∧
    (sc.windowDefined = false → sc.globalDefined = false → sc.selfDefined = true →
      (runInjection sc release).1 = .selfObj) ∧
    (sc.windowDefined = false → sc.globalDefined = false → sc.selfDefined = false →
      (runInjection sc release).1 = .freshObject) := by
  refine ⟨?_, rfl, rfl, ?_, ?_, ?_, ?_⟩
  · unfold getInjectionCode renderInjection
    congr 1
  · intro hw
    simp [runInjection, injectionExpr, evalExpr, definedIn, hw]
  · intro hw hg
    simp [runInjection, injectionExpr, evalExpr, definedIn, hw, hg]
  · intro hw hg hs
    simp [runInjection, injectionExpr, evalExpr, definedIn, hw, hg, hs]
  · intro hw hg hs
    simp [runInjection, injectionExpr, evalExpr, definedIn, hw, hg, hs]

/-- C9 witness: in a scope where only the server-side `global` object is
defined, the injection assigns to it. -/
theorem getInjectionCode_spec_witness :
    (runInjection ⟨false, true, false⟩ "1.0.0").1 = .globalObj :=
  (getInjectionCode_spec "1.0.0" ⟨false, true, false⟩).2.2.2.2.1 rfl rfl

/-- C10: the transform hook is not idempotent: for a qualifying id,
transforming the output of a previous transform appends a second copy of
the virtual-module import statement. -/
theorem transform_not_idempotent (code id : String)
    (h1 : id ≠ resolvedVirtualModuleId)
    (h2 : jsIncludes id "node_modules" = false)
    (h3 : ∃ ext ∈ scriptExt, jsEndsWith (pureIdOf id) ext = true) :
    transform code id = some (code ++ importStatement) ∧
    transform (code ++ importStatement) id
      = some (code ++ importStatement ++ importStatement) := by
  have h3' : (scriptExt.find? (fun ext => jsEndsWith (pureIdOf id) ext)).isSome
      = true := by
    rw [List.find?_isSome]
    exact h3
  constructor <;> simp [transform, h1, h2, h3']

/-- C10 witness: a module body with no import of the virtual module gains
one occurrence after the first transform and a second occurrence after
re-transforming the output, so the doubly-transformed code contains two
copies of the appended statement. -/
theorem transform_not_idempotent_witness :
    countOccurrences "const n = 1;" importStatement = 0 ∧
    transform ("const n = 1;" ++ importStatement) "/src/main.ts"
      = some ("const n = 1;" ++ importStatement ++ importStatement) ∧
    countOccurrences ("const n = 1;" ++ importStatement ++ importStatement)
      importStatement = 2 :=
  ⟨by decide,
   (transform_not_idempotent "const n = 1;" "/src/main.ts" (by decide) (by decide)
      ⟨".ts", by decide, by decide⟩).2,
   by decide⟩


end Hawk
